import Mathlib

/-!
Verification of the pricing engine in `src/duopoly.py` (function `p`,
lines 5-182) against its design specification.

Modelling conventions (shallow embedding):

* Python floats are modelled as exact rationals (`ℚ`).  All arithmetic in
  the source is `+`, `-`, `*`, `/`, `min`, `max`, plus one `np.sqrt` that
  is used only in the comparison `sqrt(max(0, v)) > 3.0`; since `sqrt` is
  strictly monotone on `[0, ∞)` and `sqrt 9 = 3`, that comparison is
  embedded as `max 0 v > 9`.  The `np.isnan`/`np.isinf` test on line 168
  can never fire in the exact-rational model, so it is a no-op here.
* The state dict that `json.loads` produces from a snapshot string is
  modelled by `StateDict`: every known field is an `Option` (present or
  absent).  Ill-typed field values (e.g. a string stored under
  `"base_price"`) are not modelled; all the claims below need only the
  present/absent distinction.  The three possible deserialization
  outcomes of a snapshot argument (lines 19 and 46-58) are the
  constructors of `SnapInput`.
* Python exceptions are modelled with `Except`: a dict read
  `state["k"]` on an absent key is a `KeyError`, and true division `/`
  by zero is a `ZeroDivisionError`.  The source catches exceptions only
  around `json.loads` (line 49) and `json.dumps` (line 177); nothing
  else is caught, so any other raised error propagates out of `p`.
* `json.dumps` of the state dict (line 176) always succeeds: every value
  in the dict is a number or a list of numbers, so the fallback on
  lines 178-180 is unreachable and is not modelled.
* Keyword feedback: `competitor_price` and `demand` are read with
  `feedback_data.get(key, None)` (lines 61-62), so an absent key and an
  explicit `None` are indistinguishable; both are `none` here.
  `my_last_price` (line 63) distinguishes absent (the default
  `state["base_price"]` is used) from an explicit `None` (the demand
  fold is skipped), hence the type `Option (Option ℚ)`.  Note that
  Python evaluates the default argument of `.get` eagerly, so
  `state["base_price"]` is read on line 63 on every call.
-/

namespace Duopoly

/-- Python runtime errors that can escape `p`. -/
inductive PyErr where
  | keyError
  | zeroDivision
  deriving DecidableEq

/-- Computations that may raise a Python error. -/
abbrev M (α : Type) := Except PyErr α

/-- A dict read `state["k"]`: raises `KeyError` when the key is absent. -/
def require {α : Type} : Option α → M α
  | none => .error .keyError
  | some a => .ok a

/-- Python true division: raises `ZeroDivisionError` on a zero denominator. -/
def pydiv (a b : ℚ) : M ℚ :=
  if b = 0 then .error .zeroDivision else .ok (a / b)

/-- The state dict as produced by `json.loads` from a snapshot: each known
field either present (`some`) or absent (`none`).  Field names and order
follow the cold-start dict on lines 21-45 of `src/duopoly.py`. -/
structure StateDict where
  season : Option Int := none
  competitor_prices : Option (List ℚ) := none
  my_prices : Option (List ℚ) := none
  demands : Option (List ℚ) := none
  profit_history : Option (List ℚ) := none
  demand_mean : Option ℚ := none
  demand_m2 : Option ℚ := none
  demand_count : Option Int := none
  competitor_mean : Option ℚ := none
  competitor_m2 : Option ℚ := none
  competitor_count : Option Int := none
  base_price : Option ℚ := none
  profit_momentum : Option ℚ := none
  price_volatility : Option ℚ := none
  competitor_trend : Option ℚ := none
  demand_trend : Option ℚ := none
  deriving DecidableEq

/-- A fully-populated, well-typed state record: what the engine itself
builds and serializes.  Counts are naturals because the engine only ever
initializes them to `0` and increments them. -/
structure State where
  season : Int
  competitor_prices : List ℚ
  my_prices : List ℚ
  demands : List ℚ
  profit_history : List ℚ
  demand_mean : ℚ
  demand_m2 : ℚ
  demand_count : Nat
  competitor_mean : ℚ
  competitor_m2 : ℚ
  competitor_count : Nat
  base_price : ℚ
  profit_momentum : ℚ
  price_volatility : ℚ
  competitor_trend : ℚ
  demand_trend : ℚ
  deriving DecidableEq

/-- The cold-start record (lines 21-45; the fallback on lines 51-58 is
field-for-field identical). -/
def coldState : State where
  season := 0
  competitor_prices := []
  my_prices := []
  demands := []
  profit_history := []
  demand_mean := 0
  demand_m2 := 0
  demand_count := 0
  competitor_mean := 0
  competitor_m2 := 0
  competitor_count := 0
  base_price := 10
  profit_momentum := 0
  price_volatility := 1
  competitor_trend := 0
  demand_trend := 0

/-- View a full record as a dict with every field present. -/
def State.toDict (s : State) : StateDict where
  season := some s.season
  competitor_prices := some s.competitor_prices
  my_prices := some s.my_prices
  demands := some s.demands
  profit_history := some s.profit_history
  demand_mean := some s.demand_mean
  demand_m2 := some s.demand_m2
  demand_count := some (s.demand_count : Int)
  competitor_mean := some s.competitor_mean
  competitor_m2 := some s.competitor_m2
  competitor_count := some (s.competitor_count : Int)
  base_price := some s.base_price
  profit_momentum := some s.profit_momentum
  price_volatility := some s.price_volatility
  competitor_trend := some s.competitor_trend
  demand_trend := some s.demand_trend

/-- Keyword feedback (`**feedback_data`), see the conventions above. -/
structure Feedback where
  competitor_price : Option ℚ := none
  demand : Option ℚ := none
  my_last_price : Option (Option ℚ) := none
  deriving DecidableEq

/-- Deserialization outcome of the `information_dump_last_round` argument:
`noSnap` is `None` or `""` (line 19), `badJson` a `json.loads` failure
(line 49), `parsed d` a successful parse to the dict `d`. -/
inductive SnapInput where
  | noSnap
  | badJson
  | parsed (d : StateDict)
  deriving DecidableEq

/-- State restoration, step 1 of `p` (lines 18-58): cold start on a missing
snapshot, cold start on a corrupted snapshot, the parsed dict otherwise. -/
def restore : SnapInput → StateDict
  | .noSnap => coldState.toDict
  | .badJson => coldState.toDict
  | .parsed d => d

/-- `MAX_HISTORY` (line 66). -/
def MAX_HISTORY : Nat := 30

/-- `append` followed by `pop(0)` when the length exceeds `MAX_HISTORY`
(e.g. lines 69-71): the bounded ring-buffer push. -/
def push30 (x : ℚ) (l : List ℚ) : List ℚ :=
  let l2 := l ++ [x]
  if l2.length > MAX_HISTORY then l2.tail else l2

/-- Line 63: `my_last_price = feedback_data.get('my_last_price',
state["base_price"])`.  The dict read in the default argument happens
eagerly, before `.get` looks at the key. -/
def extractMyLast (f : Feedback) (d : StateDict) : M (Option ℚ) := do
  let bp ← require d.base_price
  match f.my_last_price with
  | none => pure (some bp)
  | some v => pure v

/-- Lines 68-79: fold a competitor-price observation — ring-buffer push,
then the Welford update of count / mean / M2. -/
def foldCompetitorM (c? : Option ℚ) (d : StateDict) : M StateDict := do
  match c? with
  | none => pure d
  | some c => do
    let cp ← require d.competitor_prices
    let cnt ← require d.competitor_count
    let n := cnt + 1
    let mean ← require d.competitor_mean
    let delta := c - mean
    let q ← pydiv delta ((n : ℚ))
    let mean2 := mean + q
    let m2 ← require d.competitor_m2
    pure { d with competitor_prices := some (push30 c cp),
                  competitor_count := some n,
                  competitor_mean := some mean2,
                  competitor_m2 := some (m2 + delta * (c - mean2)) }

/-- Lines 81-110: fold a demand observation — ring-buffer pushes of demand,
own price and profit, the Welford update of the demand statistics, and the
exponential profit-momentum update once two profit samples exist.
`profit = (my_last_price - 5.0) * demand` (lines 100-101);
`profit_history[-1] - profit_history[-2]` is read on line 108. -/
def foldDemandM (dm? ml? : Option ℚ) (d : StateDict) : M StateDict := do
  match dm?, ml? with
  | some dm, some ml => do
    let ds0 ← require d.demands
    let mp0 ← require d.my_prices
    let ds := push30 dm ds0
    let mp := push30 ml mp0
    let cnt ← require d.demand_count
    let n := cnt + 1
    let mean ← require d.demand_mean
    let delta := dm - mean
    let q ← pydiv delta ((n : ℚ))
    let mean2 := mean + q
    let m2 ← require d.demand_m2
    let ph0 ← require d.profit_history
    let ph := push30 ((ml - 5) * dm) ph0
    let d2 : StateDict :=
      { d with demands := some ds, my_prices := some mp,
               demand_count := some n, demand_mean := some mean2,
               demand_m2 := some (m2 + delta * (dm - mean2)),
               profit_history := some ph }
    if ph.length ≥ 2 then do
      let pm ← require d.profit_momentum
      let change := ph.getLastD 0 - ph.getD (ph.length - 2) 0
      pure { d2 with profit_momentum := some (0.1 * change + (1 - 0.1) * pm) }
    else pure d2
  | _, _ => pure d

/-- The common three-sample trend rule (lines 114-120 and 123-129):
`recent = hist[-3:]`; if `recent[-1] > recent[0]` move the signal up by
`0.2` capped at `1.0`; if strictly below, down by `0.2` capped at `-1.0`;
otherwise decay by `0.8`. -/
def trendStepVal (l : List ℚ) (t : ℚ) : ℚ :=
  let lastv := l.getLastD 0
  let firstv := l.getD (l.length - 3) 0
  if lastv > firstv then min 1 (t + 0.2)
  else if lastv < firstv then max (-1) (t - 0.2)
  else 0.8 * t

/-- Lines 112-129: trend signals.  The history lengths are read
unconditionally; each trend field is read only inside its `≥ 3` branch. -/
def trendsM (d : StateDict) : M StateDict := do
  let cp ← require d.competitor_prices
  let d1 ← if cp.length ≥ 3 then do
      let t ← require d.competitor_trend
      pure { d with competitor_trend := some (trendStepVal cp t) }
    else pure d
  let ds ← require d1.demands
  if ds.length ≥ 3 then do
    let t ← require d1.demand_trend
    pure { d1 with demand_trend := some (trendStepVal ds t) }
  else pure d1

/-- Lines 131-136: adaptive base-price drift, clamped to `[6, 15]`, run
only when at least one demand observation has ever been folded. -/
def baseDriftM (d : StateDict) : M StateDict := do
  let cnt ← require d.demand_count
  if cnt > 0 then do
    let pm ← require d.profit_momentum
    let dt ← require d.demand_trend
    let bp ← require d.base_price
    let bp2 := max 6 (min 15 (bp + (0.02 * pm + 0.01 * dt)))
    pure { d with base_price := some bp2 }
  else pure d

/-- Lines 149-162: the demand-responsive price adjustment, run only after
more than five demand observations.  `variance` is `demand_m2 /
(demand_count - 1)` when `demand_count > 1`, else `0`;
`sqrt(max(0, variance)) > 3.0` is embedded as `max 0 variance > 9`
(see the header); line 162 pulls the price toward `base_price`. -/
def demandAdjustM (bp price1 : ℚ) (d : StateDict) : M ℚ := do
  let cnt ← require d.demand_count
  if cnt > 5 then do
    let variance ← if cnt > 1 then do
        let m2 ← require d.demand_m2
        pydiv m2 (((cnt - 1 : Int)) : ℚ)
      else pure 0
    let mean ← require d.demand_mean
    let price2 := if mean > 6 then price1 + 0.3
                  else if mean < 3 then price1 - 0.2 else price1
    pure (if max 0 variance > 9 then 0.7 * price2 + 0.3 * bp else price2)
  else pure price1

/-- Lines 138-162: the price composition (before the final clamp), starting
from the base price; the competitor-response branch (lines 142-147) runs
only when the observation is present and strictly positive. -/
def priceM (c? : Option ℚ) (d : StateDict) : M ℚ := do
  let bp ← require d.base_price
  let price0 := bp
  let price1 ← match c? with
    | some c =>
      if c > 0 then do
        let t ← require d.competitor_trend
        pure ((price0 + 0.3 * (c - price0)) + 0.5 * t)
      else pure price0
    | none => pure price0
  demandAdjustM bp price1 d

/-- The engine after state restoration: steps 2-8 of `p` (lines 60-182).
The returned dict stands for the serialized snapshot; `json.dumps` cannot
fail here (see the header) and the final `max(1.0, min(20.0, price))`
clamp of line 165 is applied before the (vacuous) NaN/∞ check. -/
def pAfter (t : Int) (d : StateDict) (f : Feedback) : M (ℚ × StateDict) := do
  let myLast ← extractMyLast f d
  let d1 ← foldCompetitorM f.competitor_price d
  let d2 ← foldDemandM f.demand myLast d1
  let d3 ← trendsM d2
  let d4 ← baseDriftM d3
  let price ← priceM f.competitor_price d4
  pure (max 1 (min 20 price), { d4 with season := some t })

/-- The pricing function `p` (lines 5-182): deserialize, update, price,
stamp the season, serialize. -/
def p (t : Int) (snap : SnapInput) (f : Feedback) : M (ℚ × StateDict) :=
  pAfter t (restore snap) f

/-!
The same pipeline on full records.  On an engine-produced snapshot every
dict read succeeds, so `p` agrees with the total functions below
(theorem `pAfter_toDict`); the claims about call sequences are proved by
induction on these.
-/

/-- Line 63 on a full record. -/
def extractMyLastPure (f : Feedback) (s : State) : Option ℚ :=
  match f.my_last_price with
  | none => some s.base_price
  | some v => v

/-- Lines 68-79 on a full record. -/
def foldCompetitor (c? : Option ℚ) (s : State) : State :=
  match c? with
  | none => s
  | some c =>
    let n := s.competitor_count + 1
    let mean2 := s.competitor_mean + (c - s.competitor_mean) / ((n : ℕ) : ℚ)
    { s with competitor_prices := push30 c s.competitor_prices,
             competitor_count := n,
             competitor_mean := mean2,
             competitor_m2 := s.competitor_m2 + (c - s.competitor_mean) * (c - mean2) }

/-- Lines 81-110 on a full record. -/
def foldDemand (dm? ml? : Option ℚ) (s : State) : State :=
  match dm?, ml? with
  | some dm, some ml =>
    let n := s.demand_count + 1
    let mean2 := s.demand_mean + (dm - s.demand_mean) / ((n : ℕ) : ℚ)
    let ph := push30 ((ml - 5) * dm) s.profit_history
    let pm :=
      if ph.length ≥ 2 then
        0.1 * (ph.getLastD 0 - ph.getD (ph.length - 2) 0) + (1 - 0.1) * s.profit_momentum
      else s.profit_momentum
    { s with demands := push30 dm s.demands,
             my_prices := push30 ml s.my_prices,
             demand_count := n,
             demand_mean := mean2,
             demand_m2 := s.demand_m2 + (dm - s.demand_mean) * (dm - mean2),
             profit_history := ph,
             profit_momentum := pm }
  | _, _ => s

/-- Lines 112-129 on a full record.  (The demand-side check reads
`state["demands"]`, which the competitor-trend write does not touch, so
both updates read the pre-trend state.) -/
def updTrends (s : State) : State :=
  let ct := if s.competitor_prices.length ≥ 3 then
      trendStepVal s.competitor_prices s.competitor_trend
    else s.competitor_trend
  let dt := if s.demands.length ≥ 3 then
      trendStepVal s.demands s.demand_trend
    else s.demand_trend
  { s with competitor_trend := ct, demand_trend := dt }

/-- Lines 131-136 on a full record. -/
def baseDrift (s : State) : State :=
  let bp := if 0 < s.demand_count then
      max 6 (min 15 (s.base_price + (0.02 * s.profit_momentum + 0.01 * s.demand_trend)))
    else s.base_price
  { s with base_price := bp }

/-- Lines 149-162 on a full record. -/
def demandAdjust (bp price1 : ℚ) (s : State) : ℚ :=
  if 5 < s.demand_count then
    let variance := if 1 < s.demand_count then
        s.demand_m2 / ((((s.demand_count : Int) - 1 : Int)) : ℚ)
      else 0
    let price2 := if s.demand_mean > 6 then price1 + 0.3
                  else if s.demand_mean < 3 then price1 - 0.2 else price1
    if max 0 variance > 9 then 0.7 * price2 + 0.3 * bp else price2
  else price1

/-- Lines 138-162 on a full record (price before the final clamp). -/
def priceCalc (c? : Option ℚ) (s : State) : ℚ :=
  let price0 := s.base_price
  let price1 := match c? with
    | some c =>
      if c > 0 then (price0 + 0.3 * (c - price0)) + 0.5 * s.competitor_trend
      else price0
    | none => price0
  demandAdjust s.base_price price1 s

/-- One whole call of `p` on a full record: the clamped price and the
season-stamped updated record. -/
def pPure (t : Int) (f : Feedback) (s : State) : ℚ × State :=
  let s1 := foldCompetitor f.competitor_price s
  let s2 := foldDemand f.demand (extractMyLastPure f s) s1
  let s3 := updTrends s2
  let s4 := baseDrift s3
  (max 1 (min 20 (priceCalc f.competitor_price s4)), { s4 with season := t })

/-- The state transformation of one call. -/
def stepState (t : Int) (f : Feedback) (s : State) : State :=
  (pPure t f s).2

/-- Fold a list of calls `(season, feedback)` over the pure step. -/
def runFrom : State → List (Int × Feedback) → State
  | s, [] => s
  | s, (t, f) :: rest => runFrom (stepState t f s) rest

/-- The caller-side loop: each call's returned snapshot is passed to the
next call.  (A returned dict reaches the next call through
`json.dumps`/`json.loads`, which is the identity on these dicts:
Python floats round-trip exactly through `repr`.) -/
def thread : SnapInput → List (Int × Feedback) → M SnapInput
  | snap, [] => .ok snap
  | snap, (t, f) :: rest => do
    let r ← p t snap f
    thread (.parsed r.2) rest

/-!  The wire format (lines 174-180): the state dict as a JSON object,
modelled as a key-value list whose values carry JSON's number/int/array
distinction.  `serializeState` lists the fields in the dict's insertion
order (lines 21-45); `deserializeState` is a keyed lookup, so unknown
extra fields are ignored.  -/

/-- JSON values appearing in an engine snapshot. -/
inductive JsonVal where
  | jint (n : Int)
  | jnum (q : ℚ)
  | jarr (l : List ℚ)
  deriving DecidableEq

/-- `json.dumps(state)` (line 176) as a JSON object. -/
def serializeState (s : State) : List (String × JsonVal) :=
  [("season", .jint s.season),
   ("competitor_prices", .jarr s.competitor_prices),
   ("my_prices", .jarr s.my_prices),
   ("demands", .jarr s.demands),
   ("profit_history", .jarr s.profit_history),
   ("demand_mean", .jnum s.demand_mean),
   ("demand_m2", .jnum s.demand_m2),
   ("demand_count", .jint (s.demand_count : Int)),
   ("competitor_mean", .jnum s.competitor_mean),
   ("competitor_m2", .jnum s.competitor_m2),
   ("competitor_count", .jint (s.competitor_count : Int)),
   ("base_price", .jnum s.base_price),
   ("profit_momentum", .jnum s.profit_momentum),
   ("price_volatility", .jnum s.price_volatility),
   ("competitor_trend", .jnum s.competitor_trend),
   ("demand_trend", .jnum s.demand_trend)]

/-- Read an int-valued field of a JSON object. -/
def lookupInt (j : List (String × JsonVal)) (k : String) : Option Int :=
  match j.lookup k with
  | some (.jint n) => some n
  | _ => none

/-- Read a nonnegative-int-valued field of a JSON object. -/
def lookupCount (j : List (String × JsonVal)) (k : String) : Option Nat :=
  match j.lookup k with
  | some (.jint (.ofNat n)) => some n
  | _ => none

/-- Read a number-valued field of a JSON object. -/
def lookupNum (j : List (String × JsonVal)) (k : String) : Option ℚ :=
  match j.lookup k with
  | some (.jnum q) => some q
  | _ => none

/-- Read an array-valued field of a JSON object. -/
def lookupArr (j : List (String × JsonVal)) (k : String) : Option (List ℚ) :=
  match j.lookup k with
  | some (.jarr l) => some l
  | _ => none

/-- `json.loads` of a snapshot, read back into a full record: every field
must be present with its expected shape; unknown fields are ignored. -/
def deserializeState (j : List (String × JsonVal)) : Option State := do
  let season ← lookupInt j "season"
  let competitor_prices ← lookupArr j "competitor_prices"
  let my_prices ← lookupArr j "my_prices"
  let demands ← lookupArr j "demands"
  let profit_history ← lookupArr j "profit_history"
  let demand_mean ← lookupNum j "demand_mean"
  let demand_m2 ← lookupNum j "demand_m2"
  let demand_count ← lookupCount j "demand_count"
  let competitor_mean ← lookupNum j "competitor_mean"
  let competitor_m2 ← lookupNum j "competitor_m2"
  let competitor_count ← lookupCount j "competitor_count"
  let base_price ← lookupNum j "base_price"
  let profit_momentum ← lookupNum j "profit_momentum"
  let price_volatility ← lookupNum j "price_volatility"
  let competitor_trend ← lookupNum j "competitor_trend"
  let demand_trend ← lookupNum j "demand_trend"
  pure { season := season, competitor_prices := competitor_prices,
         my_prices := my_prices, demands := demands,
         profit_history := profit_history, demand_mean := demand_mean,
         demand_m2 := demand_m2, demand_count := demand_count,
         competitor_mean := competitor_mean, competitor_m2 := competitor_m2,
         competitor_count := competitor_count, base_price := base_price,
         profit_momentum := profit_momentum, price_volatility := price_volatility,
         competitor_trend := competitor_trend, demand_trend := demand_trend }

/-! Agreement of the exception-aware pipeline with the total one on
fully-populated records. -/

@[simp] theorem require_some {α : Type} (a : α) : require (some a) = .ok a := rfl

@[simp] theorem M_bind_ok {α β : Type} (a : α) (g : α → M β) :
    (Except.ok a >>= g) = g a := rfl

@[simp] theorem M_bind_err {α β : Type} (e : PyErr) (g : α → M β) :
    ((Except.error e : M α) >>= g) = .error e := rfl

@[simp] theorem M_pure_eq {α : Type} (a : α) : (pure a : M α) = .ok a := rfl

theorem natSucc_cast_ne_zero (n : ℕ) : ((((n : Int) + 1 : Int)) : ℚ) ≠ 0 := by
  push_cast
  positivity

theorem extractMyLast_toDict (f : Feedback) (s : State) :
    extractMyLast f s.toDict = .ok (extractMyLastPure f s) := by
  cases h : f.my_last_price <;>
    simp [extractMyLast, extractMyLastPure, State.toDict, h]

theorem foldCompetitorM_toDict (c? : Option ℚ) (s : State) :
    foldCompetitorM c? s.toDict = .ok (foldCompetitor c? s).toDict := by
  cases c? with
  | none => rfl
  | some c =>
    simp only [foldCompetitorM, foldCompetitor, State.toDict, require_some,
      M_bind_ok, M_pure_eq, pydiv, if_neg (natSucc_cast_ne_zero s.competitor_count)]
    simp only [StateDict.mk.injEq, Except.ok.injEq, and_true, true_and]
    push_cast
    simp

theorem foldDemandM_toDict (dm? ml? : Option ℚ) (s : State) :
    foldDemandM dm? ml? s.toDict = .ok (foldDemand dm? ml? s).toDict := by
  cases dm? with
  | none => cases ml? <;> rfl
  | some dm =>
    cases ml? with
    | none => rfl
    | some ml =>
      simp only [foldDemandM, foldDemand, State.toDict, require_some,
        M_bind_ok, M_pure_eq, pydiv, if_neg (natSucc_cast_ne_zero s.demand_count)]
      split <;>
        · simp only [StateDict.mk.injEq, Except.ok.injEq, and_true, true_and]
          push_cast
          simp

theorem trendsM_toDict (s : State) :
    trendsM s.toDict = .ok (updTrends s).toDict := by
  simp only [trendsM, updTrends, State.toDict, require_some, M_bind_ok, M_pure_eq]
  split <;> split <;> rfl

theorem baseDriftM_toDict (s : State) :
    baseDriftM s.toDict = .ok (baseDrift s).toDict := by
  simp only [baseDriftM, baseDrift, State.toDict, require_some, M_bind_ok, M_pure_eq]
  split
  · next h =>
    rw [if_pos (by exact_mod_cast h)]
  · next h =>
    rw [if_neg (by exact_mod_cast h)]

theorem demandAdjustM_toDict (bp price1 : ℚ) (s : State) :
    demandAdjustM bp price1 s.toDict = .ok (demandAdjust bp price1 s) := by
  simp only [demandAdjustM, demandAdjust, State.toDict, require_some,
    M_bind_ok, M_pure_eq]
  by_cases h5 : 5 < s.demand_count
  · have h5i : ((s.demand_count : Int)) > 5 := by exact_mod_cast h5
    have h1n : 1 < s.demand_count := by omega
    have h1i : ((s.demand_count : Int)) > 1 := by exact_mod_cast h1n
    have hne : ((((s.demand_count : Int) - 1 : Int)) : ℚ) ≠ 0 := by
      have h1q : (1 : ℚ) < (s.demand_count : ℚ) := by exact_mod_cast h1n
      push_cast
      intro hq
      linarith
    rw [if_pos h5i, if_pos h1i, if_pos h5, if_pos h1n]
    simp only [pydiv, if_neg hne, M_bind_ok, M_pure_eq]
  · have h5i : ¬(((s.demand_count : Int)) > 5) := by exact_mod_cast h5
    rw [if_neg h5i, if_neg h5]

theorem priceM_toDict (c? : Option ℚ) (s : State) :
    priceM c? s.toDict = .ok (priceCalc c? s) := by
  cases c? with
  | none =>
    simp only [priceM, priceCalc, State.toDict, require_some, M_bind_ok, M_pure_eq]
    exact demandAdjustM_toDict s.base_price s.base_price s
  | some c =>
    simp only [priceM, priceCalc, State.toDict, require_some, M_bind_ok, M_pure_eq]
    split <;> exact demandAdjustM_toDict _ _ s

theorem pAfter_toDict (t : Int) (f : Feedback) (s : State) :
    pAfter t s.toDict f = .ok ((pPure t f s).1, (stepState t f s).toDict) := by
  simp only [pAfter, pPure, stepState, extractMyLast_toDict, foldCompetitorM_toDict,
    foldDemandM_toDict, trendsM_toDict, baseDriftM_toDict, priceM_toDict,
    M_bind_ok, M_pure_eq]
  rfl

theorem p_toDict (t : Int) (f : Feedback) (s : State) :
    p t (.parsed s.toDict) f = .ok ((pPure t f s).1, (stepState t f s).toDict) :=
  pAfter_toDict t f s

theorem p_cold (t : Int) (f : Feedback) :
    p t .noSnap f = .ok ((pPure t f coldState).1, (stepState t f coldState).toDict) :=
  pAfter_toDict t f coldState

theorem p_badJson (t : Int) (f : Feedback) :
    p t .badJson f = .ok ((pPure t f coldState).1, (stepState t f coldState).toDict) :=
  pAfter_toDict t f coldState

theorem thread_toDict (calls : List (Int × Feedback)) (s : State) :
    thread (.parsed s.toDict) calls = .ok (.parsed (runFrom s calls).toDict) := by
  induction calls generalizing s with
  | nil => rfl
  | cons c rest ih =>
    obtain ⟨t, f⟩ := c
    simp [thread, p_toDict, runFrom, ih]

theorem thread_cold (t : Int) (f : Feedback) (rest : List (Int × Feedback)) :
    thread .noSnap ((t, f) :: rest)
      = .ok (.parsed (runFrom coldState ((t, f) :: rest)).toDict) := by
  simp [thread, p_cold, runFrom, thread_toDict]

/-! Invariants of the pure step, proved by induction over call sequences. -/

theorem push30_length_le {l : List ℚ} (x : ℚ) (h : l.length ≤ 30) :
    (push30 x l).length ≤ 30 := by
  simp only [push30, MAX_HISTORY]
  split
  · simp only [List.length_tail, List.length_append, List.length_cons,
      List.length_nil]
    omega
  · next hgt =>
    simp only [List.length_append, List.length_cons, List.length_nil] at hgt ⊢
    omega

/-- All four history buffers are within the 30-element bound. -/
def HistOk (s : State) : Prop :=
  s.competitor_prices.length ≤ 30 ∧ s.my_prices.length ≤ 30 ∧
    s.demands.length ≤ 30 ∧ s.profit_history.length ≤ 30

theorem histOk_cold : HistOk coldState := by
  simp [HistOk, coldState]

theorem histOk_step (t : Int) (f : Feedback) {s : State} (h : HistOk s) :
    HistOk (stepState t f s) := by
  obtain ⟨h1, h2, h3, h4⟩ := h
  simp only [stepState, pPure, baseDrift, updTrends]
  cases hc : f.competitor_price <;>
    cases hd : f.demand <;>
      cases hm : extractMyLastPure f s <;>
        simp_all [HistOk, foldCompetitor, foldDemand, push30_length_le]

/-- Both trend signals stay in `[-1, 1]`. -/
def TrendOk (s : State) : Prop :=
  -1 ≤ s.competitor_trend ∧ s.competitor_trend ≤ 1 ∧
    -1 ≤ s.demand_trend ∧ s.demand_trend ≤ 1

theorem trendOk_cold : TrendOk coldState := by
  simp [TrendOk, coldState]

theorem trendStepVal_mem {t : ℚ} (l : List ℚ) (hlo : -1 ≤ t) (hhi : t ≤ 1) :
    -1 ≤ trendStepVal l t ∧ trendStepVal l t ≤ 1 := by
  simp only [trendStepVal]
  split
  · exact ⟨le_min (by norm_num) (by linarith), min_le_left _ _⟩
  · split
    · exact ⟨le_max_left _ _, max_le (by norm_num) (by linarith)⟩
    · constructor <;> nlinarith

theorem trendOk_step (t : Int) (f : Feedback) {s : State} (h : TrendOk s) :
    TrendOk (stepState t f s) := by
  obtain ⟨h1, h2, h3, h4⟩ := h
  have hcomp : ∀ c? s', (foldCompetitor c? s').competitor_trend = s'.competitor_trend ∧
      (foldCompetitor c? s').demand_trend = s'.demand_trend := by
    intro c? s'
    cases c? <;> simp [foldCompetitor]
  have hdem : ∀ dm? ml? s', (foldDemand dm? ml? s').competitor_trend = s'.competitor_trend ∧
      (foldDemand dm? ml? s').demand_trend = s'.demand_trend := by
    intro dm? ml? s'
    cases dm? <;> cases ml? <;> simp [foldDemand]
  simp only [stepState, pPure, baseDrift, TrendOk]
  simp only [updTrends]
  obtain ⟨e1, e2⟩ := hdem f.demand (extractMyLastPure f s) (foldCompetitor f.competitor_price s)
  obtain ⟨e3, e4⟩ := hcomp f.competitor_price s
  rw [e1, e2, e3, e4]
  constructor
  · split
    · exact (trendStepVal_mem _ h1 h2).1
    · exact h1
  constructor
  · split
    · exact (trendStepVal_mem _ h1 h2).2
    · exact h2
  constructor
  · split
    · exact (trendStepVal_mem _ h3 h4).1
    · exact h3
  · split
    · exact (trendStepVal_mem _ h3 h4).2
    · exact h4

/-- The base price stays in `[6, 15]`. -/
def BaseOk (s : State) : Prop := 6 ≤ s.base_price ∧ s.base_price ≤ 15

theorem baseOk_cold : BaseOk coldState := by
  norm_num [BaseOk, coldState]

theorem baseOk_step (t : Int) (f : Feedback) {s : State} (h : BaseOk s) :
    BaseOk (stepState t f s) := by
  have hcomp : ∀ c? s', (foldCompetitor c? s').base_price = s'.base_price := by
    intro c? s'
    cases c? <;> simp [foldCompetitor]
  have hdem : ∀ dm? ml? s', (foldDemand dm? ml? s').base_price = s'.base_price := by
    intro dm? ml? s'
    cases dm? <;> cases ml? <;> simp [foldDemand]
  simp only [stepState, pPure, baseDrift, updTrends, BaseOk]
  rw [hdem, hcomp]
  split
  · exact ⟨le_max_left _ _, max_le (by norm_num) (min_le_left _ _)⟩
  · exact h

/-- An invariant preserved by every step holds after any call sequence. -/
theorem runFrom_inv (P : State → Prop)
    (hstep : ∀ t f s, P s → P (stepState t f s)) :
    ∀ (calls : List (Int × Feedback)) (s : State), P s → P (runFrom s calls) := by
  intro calls
  induction calls with
  | nil => intro s h; exact h
  | cons c rest ih =>
    intro s h
    obtain ⟨t, f⟩ := c
    exact ih _ (hstep t f s h)

/-! Claim theorems. -/

theorem M_ok_of_bind {α β : Type} {x : M α} {g : α → M β} {r : β}
    (h : (x >>= g) = .ok r) : ∃ a, x = .ok a ∧ g a = .ok r := by
  cases x with
  | error e => simp [M_bind_err] at h
  | ok a => exact ⟨a, rfl, h⟩

/-- C3: whenever `p` returns a `(price, snapshot)` pair, the price lies in
`[1, 20]` — for every period, snapshot outcome and feedback combination.
(In this exact-rational model the price is a rational, hence finite by
construction; the clamp on line 165 gives the bounds.) -/
theorem C3_price_range (t : Int) (snap : SnapInput) (f : Feedback)
    (pr : ℚ) (out : StateDict) (h : p t snap f = .ok (pr, out)) :
    1 ≤ pr ∧ pr ≤ 20 := by
  simp only [p, pAfter] at h
  obtain ⟨a1, -, h⟩ := M_ok_of_bind h
  obtain ⟨a2, -, h⟩ := M_ok_of_bind h
  obtain ⟨a3, -, h⟩ := M_ok_of_bind h
  obtain ⟨a4, -, h⟩ := M_ok_of_bind h
  obtain ⟨a5, -, h⟩ := M_ok_of_bind h
  obtain ⟨price, -, h⟩ := M_ok_of_bind h
  simp only [M_pure_eq, Except.ok.injEq, Prod.mk.injEq] at h
  obtain ⟨hpr, -⟩ := h
  subst hpr
  exact ⟨le_max_left _ _, max_le (by norm_num) (min_le_left _ _)⟩

/-- Shared concrete feedback shapes used by the concrete-run theorems. -/
def fbCD (c dm : ℚ) : Feedback :=
  { competitor_price := some c, demand := some dm, my_last_price := some (some 10) }

def fbD (dm : ℚ) : Feedback :=
  { demand := some dm, my_last_price := some (some 10) }

theorem C3_price_range_witness :
    1 ≤ (pPure 1 (fbCD 10 5) coldState).1 ∧ (pPure 1 (fbCD 10 5) coldState).1 ≤ 20 :=
  C3_price_range 1 .noSnap (fbCD 10 5) _ _ (p_cold 1 (fbCD 10 5))

/-- All four history fields of a snapshot dict are within the bound. -/
def sizesBounded (d : StateDict) : Prop :=
  (∀ l ∈ d.competitor_prices, l.length ≤ 30) ∧
    (∀ l ∈ d.my_prices, l.length ≤ 30) ∧
    (∀ l ∈ d.demands, l.length ≤ 30) ∧
    (∀ l ∈ d.profit_history, l.length ≤ 30)

/-- C4: starting from cold start and threading each returned snapshot into
the next call, after every call of any call sequence the four history
sequences in the returned snapshot have length at most 30. -/
theorem C4_histories_bounded (calls : List (Int × Feedback)) (d : StateDict)
    (h : thread .noSnap calls = .ok (.parsed d)) : sizesBounded d := by
  cases calls with
  | nil => simp [thread] at h
  | cons c rest =>
    obtain ⟨t, f⟩ := c
    rw [thread_cold] at h
    have hd : d = (runFrom coldState ((t, f) :: rest)).toDict := by
      injection h with h'
      injection h' with h''
      exact h''.symm
    subst hd
    have hh : HistOk (runFrom coldState ((t, f) :: rest)) :=
      runFrom_inv HistOk (fun t f s => histOk_step t f) _ _ histOk_cold
    obtain ⟨a1, a2, a3, a4⟩ := hh
    refine ⟨?_, ?_, ?_, ?_⟩ <;>
      · intro l hl
        simp only [State.toDict, Option.mem_def, Option.some.injEq] at hl
        subst hl
        assumption

theorem C4_histories_bounded_witness :
    sizesBounded ((runFrom coldState [(1, fbCD 10 5)]).toDict) :=
  C4_histories_bounded [(1, fbCD 10 5)] _ (thread_cold 1 (fbCD 10 5) [])

/-- Both trend fields of a snapshot dict lie in `[-1, 1]`. -/
def trendsInRange (d : StateDict) : Prop :=
  (∀ q ∈ d.competitor_trend, -1 ≤ q ∧ q ≤ 1) ∧
    (∀ q ∈ d.demand_trend, -1 ≤ q ∧ q ≤ 1)

/-- C5: starting from cold start and threading each returned snapshot into
the next call, after every call `competitor_trend` and `demand_trend` in
the returned snapshot lie in `[-1, 1]` (the `+0.2` rise is capped at `1`,
the `-0.2` fall at `-1`, the `0.8` decay keeps in-range values in range). -/
theorem C5_trend_range (calls : List (Int × Feedback)) (d : StateDict)
    (h : thread .noSnap calls = .ok (.parsed d)) : trendsInRange d := by
  cases calls with
  | nil => simp [thread] at h
  | cons c rest =>
    obtain ⟨t, f⟩ := c
    rw [thread_cold] at h
    have hd : d = (runFrom coldState ((t, f) :: rest)).toDict := by
      injection h with h'
      injection h' with h''
      exact h''.symm
    subst hd
    have hh : TrendOk (runFrom coldState ((t, f) :: rest)) :=
      runFrom_inv TrendOk (fun t f s => trendOk_step t f) _ _ trendOk_cold
    obtain ⟨a1, a2, a3, a4⟩ := hh
    constructor <;>
      · intro q hq
        simp only [State.toDict, Option.mem_def, Option.some.injEq] at hq
        subst hq
        constructor <;> assumption

theorem C5_trend_range_witness :
    trendsInRange ((runFrom coldState [(1, fbCD 6 5), (2, fbCD 8 5), (3, fbCD 10 5)]).toDict) :=
  C5_trend_range [(1, fbCD 6 5), (2, fbCD 8 5), (3, fbCD 10 5)] _
    (thread_cold 1 (fbCD 6 5) [(2, fbCD 8 5), (3, fbCD 10 5)])

/-- The base-price field of a snapshot dict lies in `[6, 15]`. -/
def baseInRange (d : StateDict) : Prop :=
  ∀ q ∈ d.base_price, 6 ≤ q ∧ q ≤ 15

/-- C6: starting from cold start and threading each returned snapshot into
the next call, after every call `base_price` in the returned snapshot lies
in `[6, 15]`: it starts at `10`, is clamped to `[6, 15]` whenever the
drift update runs (`demand_count > 0`), and is unchanged otherwise. -/
theorem C6_base_price_range (calls : List (Int × Feedback)) (d : StateDict)
    (h : thread .noSnap calls = .ok (.parsed d)) : baseInRange d := by
  cases calls with
  | nil => simp [thread] at h
  | cons c rest =>
    obtain ⟨t, f⟩ := c
    rw [thread_cold] at h
    have hd : d = (runFrom coldState ((t, f) :: rest)).toDict := by
      injection h with h'
      injection h' with h''
      exact h''.symm
    subst hd
    have hh : BaseOk (runFrom coldState ((t, f) :: rest)) :=
      runFrom_inv BaseOk (fun t f s => baseOk_step t f) _ _ baseOk_cold
    intro q hq
    simp only [State.toDict, Option.mem_def, Option.some.injEq] at hq
    subst hq
    exact hh

theorem C6_base_price_range_witness :
    baseInRange ((runFrom coldState [(1, fbD 5)]).toDict) :=
  C6_base_price_range [(1, fbD 5)] _ (thread_cold 1 (fbD 5) [])

/-- C10: when `competitor_price` is present but `≤ 0`, the observation is
still pushed onto the competitor history ring buffer and folded into the
Welford accumulators (count up by one, mean and M2 updated); only the
competitor-gap and competitor-trend price terms are skipped, because the
price-response branch (line 142) alone requires `competitor_price > 0` —
so the price equals the one computed with no competitor observation. -/
theorem C10_nonpositive_competitor_folded (s : State) (t : Int) (f : Feedback)
    (c : ℚ) (hc : f.competitor_price = some c) (hle : c ≤ 0) :
    (stepState t f s).competitor_prices = push30 c s.competitor_prices ∧
    (stepState t f s).competitor_count = s.competitor_count + 1 ∧
    (stepState t f s).competitor_mean
      = s.competitor_mean + (c - s.competitor_mean) / (((s.competitor_count + 1 : ℕ)) : ℚ) ∧
    (stepState t f s).competitor_m2
      = s.competitor_m2 + (c - s.competitor_mean) *
          (c - (s.competitor_mean
                  + (c - s.competitor_mean) / (((s.competitor_count + 1 : ℕ)) : ℚ))) ∧
    (pPure t f s).1 = (pPure t { f with competitor_price := none } s).1 := by
  obtain ⟨cp, dm, ml⟩ := f
  simp only at hc
  subst hc
  have hngt : ¬(c > 0) := not_lt.mpr hle
  rcases dm with - | dmv <;> rcases ml with - | (- | mlv) <;>
    · refine ⟨rfl, rfl, rfl, rfl, ?_⟩
      simp only [pPure, priceCalc]
      rw [if_neg hngt]
      rfl

/-- Closed instance of C10 at `s = coldState`, `c = -2`. -/
theorem C10_nonpositive_competitor_folded_witness :
    (stepState 1 ⟨some (-2), none, none⟩ coldState).competitor_prices
        = push30 (-2) coldState.competitor_prices ∧
    (stepState 1 ⟨some (-2), none, none⟩ coldState).competitor_count
        = coldState.competitor_count + 1 ∧
    (stepState 1 ⟨some (-2), none, none⟩ coldState).competitor_mean
        = coldState.competitor_mean + (-2 - coldState.competitor_mean)
            / (((coldState.competitor_count + 1 : ℕ)) : ℚ) ∧
    (stepState 1 ⟨some (-2), none, none⟩ coldState).competitor_m2
        = coldState.competitor_m2 + (-2 - coldState.competitor_mean) *
            (-2 - (coldState.competitor_mean + (-2 - coldState.competitor_mean)
                     / (((coldState.competitor_count + 1 : ℕ)) : ℚ))) ∧
    (pPure 1 ⟨some (-2), none, none⟩ coldState).1
        = (pPure 1 ⟨none, none, none⟩ coldState).1 :=
  C10_nonpositive_competitor_folded coldState 1 ⟨some (-2), none, none⟩ (-2)
    rfl (by norm_num)

/-- The snapshot `'\x7b"season": 1\x7d'`: valid JSON that omits most known
fields — the shape the repo's own robustness test feeds in (its literal is
`'\x7b"season": "not_a_number"\x7d'`, whose season value is likewise never
read before the crash). -/
def seasonOnlySnap : StateDict := { season := some 1 }

/-- C1 (code_bug evaluation): on a snapshot that parses but omits
`base_price`, the very first dict read — the eagerly evaluated default
`state["base_price"]` of line 63 — raises `KeyError`, so `p` is not total:
no `(price, snapshot)` pair is returned. -/
theorem C1_keyError_on_partial_snapshot :
    p 5 (.parsed seasonOnlySnap) { competitor_price := some 10, demand := some 5 }
      = .error .keyError := rfl

/-- A parsed snapshot with every field of the cold-start dict except
`my_prices` (so `json.loads` succeeds and the dict is only
field-incomplete). -/
def noMyPricesSnap : StateDict := { coldState.toDict with my_prices := none }

/-- C2 (code_bug evaluation): after a successful partial deserialization
nothing is backfilled — the absent `my_prices` field makes line 83
(`state["my_prices"].append(...)`) raise `KeyError` instead of being
replaced by the cold-start default `[]`. -/
theorem C2_no_backfill_keyError :
    p 1 (.parsed noMyPricesSnap) (fbD 5) = .error .keyError := rfl

/-- C8: deserializing the serialized form of any engine-built record gives
back the record: the engine writes every field with its expected JSON
shape under a distinct stable key, and the keyed read-back restores each
field (exact number round-trip; Python floats round-trip through `repr`). -/
theorem C8_roundtrip (s : State) :
    deserializeState (serializeState s) = some s := rfl

/-! Concrete folds for the statistics and trend-direction claims. -/

def demandSeq : List ℚ := [1, 3, 5, 7, 9, 2, 4, 6, 8, 10]

/-- Ten consecutive calls feeding `demandSeq` with the own price present
each call (no gaps). -/
def c7calls : List (Int × Feedback) :=
  [(1, fbD 1), (2, fbD 3), (3, fbD 5), (4, fbD 7), (5, fbD 9),
   (6, fbD 2), (7, fbD 4), (8, fbD 6), (9, fbD 8), (10, fbD 10)]

def c7state : State := runFrom coldState c7calls

def seqMean (l : List ℚ) : ℚ := l.sum / (l.length : ℚ)

/-- Sample variance with one delta degree of freedom (`ddof=1`). -/
def seqSampleVar (l : List ℚ) : ℚ :=
  (l.map (fun x => (x - seqMean l) ^ 2)).sum / ((l.length : ℚ) - 1)

set_option maxRecDepth 40000 in
set_option maxHeartbeats 2000000 in
/-- C7: after folding `[1,3,5,7,9,2,4,6,8,10]` over ten consecutive calls
with demand and own price present each call, the final snapshot's
`demand_mean` is the arithmetic mean `5.5` of the sequence and
`demand_m2 / (demand_count - 1)` is its `ddof=1` sample variance, each
within `1e-3` (they are exact in this rational model). -/
theorem C7_welford_statistics :
    thread .noSnap c7calls = .ok (.parsed c7state.toDict) ∧
    c7state.demand_count = 10 ∧
    seqMean demandSeq = 5.5 ∧
    |c7state.demand_mean - seqMean demandSeq| ≤ 1 / 1000 ∧
    |c7state.demand_m2 / ((c7state.demand_count : ℚ) - 1)
        - seqSampleVar demandSeq| ≤ 1 / 1000 := by
  refine ⟨thread_cold 1 (fbD 1) _, ?_, ?_, ?_, ?_⟩ <;>
    norm_num [c7state, c7calls, runFrom, stepState, pPure, foldCompetitor,
      foldDemand, updTrends, baseDrift, extractMyLastPure, priceCalc,
      demandAdjust, push30, MAX_HISTORY, trendStepVal, coldState, fbD,
      demandSeq, seqMean, seqSampleVar, List.getD, List.getLastD,
      min_def, max_def]

def c9up : List (Int × Feedback) :=
  [(1, fbCD 6 5), (2, fbCD 8 5), (3, fbCD 10 5), (4, fbCD 12 5), (5, fbCD 14 5)]

def c9down : List (Int × Feedback) :=
  [(6, fbCD 12 5), (7, fbCD 10 5), (8, fbCD 8 5), (9, fbCD 6 5), (10, fbCD 4 5)]

set_option maxRecDepth 40000 in
set_option maxHeartbeats 2000000 in
/-- C9: from cold start, five strictly increasing competitor prices
`6, 8, 10, 12, 14` leave `competitor_trend > 0.1` in the snapshot
(it reaches `0.6`), and continuing with the five strictly decreasing
prices `12, 10, 8, 6, 4` drives it below `-0.1` (to `-0.32`). -/
theorem C9_trend_direction :
    thread .noSnap c9up = .ok (.parsed (runFrom coldState c9up).toDict) ∧
    (runFrom coldState c9up).competitor_trend > 0.1 ∧
    thread .noSnap (c9up ++ c9down)
      = .ok (.parsed (runFrom coldState (c9up ++ c9down)).toDict) ∧
    (runFrom coldState (c9up ++ c9down)).competitor_trend < -0.1 := by
  refine ⟨thread_cold 1 (fbCD 6 5) _, ?_, thread_cold 1 (fbCD 6 5) _, ?_⟩ <;>
    norm_num [c9up, c9down, runFrom, stepState, pPure, foldCompetitor,
      foldDemand, updTrends, baseDrift, extractMyLastPure, priceCalc,
      demandAdjust, push30, MAX_HISTORY, trendStepVal, coldState, fbCD,
      List.getD, List.getLastD, min_def, max_def]

end Duopoly
